import Mathlib

/-!
Shallow embedding of the TelemetriX core (src/app.py): an isolation-forest
anomaly detector over four telemetry channels, and an orbital proximity
evaluator that samples two circular orbits over one orbital period of the
first orbit, takes the minimum Euclidean distance, and classifies risk.
-/

namespace TelemetriX

/-! ## Risk classification (src/app.py lines 53-57)

The script starts from the SAFE status and sequentially overwrites it:
`if min_distance < 50` it becomes WARNING, then `if min_distance < 10` it
becomes CRITICAL.  Float comparison values are all rational, so the
threshold logic is embedded over ℚ. -/

inductive RiskStatus where
  | SAFE
  | WARNING
  | CRITICAL
deriving DecidableEq, Repr

/-- Embeds the sequential reassignment of `risk_status` in src/app.py:
start at SAFE, overwrite with WARNING when the distance is below 50,
then overwrite with CRITICAL when it is below 10. -/
def risk_status (min_distance : ℚ) : RiskStatus :=
  let r0 := RiskStatus.SAFE
  let r1 := if min_distance < 50 then RiskStatus.WARNING else r0
  let r2 := if min_distance < 10 then RiskStatus.CRITICAL else r1
  r2

/-! ## Telemetry data model and anomaly detection (src/app.py lines 24-35)

A float value is either a finite rational (every IEEE float value is a
rational number) or one of the non-finite values NaN / +Inf / -Inf. -/

inductive FVal where
  | finite (q : ℚ)
  | nan
  | inf
  | ninf
deriving DecidableEq, Repr

def FVal.isFinite : FVal → Bool
  | .finite _ => true
  | _ => false

/-- The telemetry DataFrame of src/app.py: the five columns built at
lines 24-30, plus the `anomaly` column which only exists after line 35
(hence an `Option`). -/
structure Frame where
  time : List FVal
  temperature : List FVal
  voltage : List FVal
  current : List FVal
  signal_strength : List FVal
  anomaly : Option (List Int)
deriving DecidableEq, Repr

/-- Number of rows of the frame. -/
def numSamples (f : Frame) : ℕ := f.time.length

/-- Line 33: `features = telemetry[["temperature","voltage","current","signal_strength"]]` —
the four feature columns, without the time column. -/
def features (f : Frame) : List FVal × List FVal × List FVal × List FVal :=
  (f.temperature, f.voltage, f.current, f.signal_strength)

/-- The type of the feature sub-frame passed to the detector. -/
abbrev Features := List FVal × List FVal × List FVal × List FVal

/-- The interface of `IsolationForest(contamination, random_state).fit_predict`:
a pure function of the contamination, the seed (`random_state`) and the
feature matrix, returning one integer label per row.  The library is modelled
abstractly; theorems that need its documented contract (one ±1 label per
row) take that contract as an explicit hypothesis. -/
abbrev FitPredict := ℚ → ℕ → Features → List Int

/-- Lines 34-35 of src/app.py: fit an isolation forest with
`contamination=0.05` and `random_state=42` over the four feature columns and
store the resulting labels in the `anomaly` column (`-1` = anomaly). -/
def detectStep (fp : FitPredict) (f : Frame) : Frame :=
  { f with anomaly := some (fp (5 / 100) 42 (features f)) }

/-- Two consecutive runs of the detection step on the same frame, modelling
repeated calls of `fit_predict` with the same fixed seed. -/
def runDetectTwice (fp : FitPredict) (f : Frame) : Frame × Frame :=
  (detectStep fp f, detectStep fp f)

/-- All values appearing in any of the four feature channels. -/
def channelValues (f : Frame) : List FVal :=
  f.temperature ++ f.voltage ++ f.current ++ f.signal_strength

inductive DetectError where
  | invalidInput
deriving DecidableEq, Repr

/-- Modelled from the spec: input validation for the anomaly detector is
absent from src/app.py (the script only ever feeds a fixed well-formed
500-row series), so the guard is taken from the spec's failure clause —
fail with `InvalidInputError` when fewer than 2 samples are given or when
any channel contains a non-finite value, otherwise run the detection. -/
def detectChecked (fp : FitPredict) (f : Frame) : Except DetectError Frame :=
  if 2 ≤ numSamples f ∧ (channelValues f).all FVal.isFinite = true then
    Except.ok (detectStep fp f)
  else
    Except.error DetectError.invalidInput

/-! ## Orbital proximity evaluation (src/app.py lines 38-51)

Both satellites are circular equatorial orbits sharing the same epoch
(lines 38-40), so at elapsed time `t` each sits at angle `2π t / period`
from the x-axis in the z = 0 plane, at its orbit radius — the circular
Keplerian propagation that `Orbit.circular` + `propagate` perform, with the
period given by Kepler's third law `T = 2π √(r³/μ)`. -/

/-- A 3D position vector in km. -/
abbrev Vec3 : Type := ℝ × ℝ × ℝ

/-- Orbital period of a circular orbit of radius `r` around a body of
gravitational parameter `mu` (Kepler's third law). -/
noncomputable def period (mu r : ℝ) : ℝ := 2 * Real.pi * Real.sqrt (r ^ 3 / mu)

/-- Phase angle of the circular orbit at elapsed time `t` from epoch. -/
noncomputable def angleAt (mu r t : ℝ) : ℝ := 2 * Real.pi * t / period mu r

/-- Position of a satellite on a circular equatorial orbit of radius `r`
at elapsed time `t` from its epoch. -/
noncomputable def position (mu r t : ℝ) : Vec3 :=
  (r * Real.cos (angleAt mu r t), r * Real.sin (angleAt mu r t), 0)

/-- The `i`-th of the `n` uniform sample times of `np.linspace(0, P, n)`:
`P * i / (n - 1)` (endpoints included). -/
noncomputable def sampleTime (P : ℝ) (n i : ℕ) : ℝ := P * i / ((n : ℝ) - 1)

/-- Line 43: `times = np.linspace(0, sat1.period, n)` as a list. -/
noncomputable def sampleTimes (P : ℝ) (n : ℕ) : List ℝ :=
  (List.range n).map (sampleTime P n)

/-- Lines 46-47: the positions of one satellite at each of the sample
times (`sat1_coords` / `sat2_coords`). -/
noncomputable def coords (mu r : ℝ) (ts : List ℝ) : List Vec3 :=
  ts.map (position mu r)

/-- Componentwise difference of two position vectors. -/
noncomputable def vsub (a b : Vec3) : Vec3 :=
  (a.1 - b.1, a.2.1 - b.2.1, a.2.2 - b.2.2)

/-- Euclidean norm of a 3D vector (`np.linalg.norm` along axis 1). -/
noncomputable def norm3 (v : Vec3) : ℝ :=
  Real.sqrt (v.1 ^ 2 + v.2.1 ^ 2 + v.2.2 ^ 2)

/-- Distance between the two satellites at elapsed time `t`. -/
noncomputable def pairDist (mu rA rB t : ℝ) : ℝ :=
  norm3 (vsub (position mu rA t) (position mu rB t))

/-- Line 50: the distance series — for each aligned sample index, the
Euclidean norm of the difference of the two coordinate rows.  Both orbits
are sampled at the same times, spanning one period of orbit A. -/
noncomputable def distSeries (mu rA rB : ℝ) (n : ℕ) : List ℝ :=
  ((coords mu rA (sampleTimes (period mu rA) n)).zip
      (coords mu rB (sampleTimes (period mu rA) n))).map
    (fun p => norm3 (vsub p.1 p.2))

/-- `np.min` of a list of reals (0 on the empty list, which `np.min`
rejects; every use below has a nonempty list). -/
noncomputable def listMin : List ℝ → ℝ
  | [] => 0
  | x :: xs => xs.foldl min x

/-- Line 51: `min_distance = np.min(distances)`. -/
noncomputable def min_distance (mu rA rB : ℝ) (n : ℕ) : ℝ :=
  listMin (distSeries mu rA rB n)

inductive OrbitError where
  | invalidOrbit
deriving DecidableEq, Repr

/-- Modelled from the spec: input validation for the orbital evaluator is
absent from src/app.py (the script hard-codes two valid altitudes and
sampleCount = 100), so the guard is taken from the spec's failure clause —
fail with `InvalidOrbitError` for a non-positive radius, a radius below
the central body's surface radius `Rsurf`, or `sampleCount < 2`; otherwise
return the two trajectories and the minimum distance.  Radii arrive as
exact rational configuration values. -/
noncomputable def evaluate (mu : ℝ) (Rsurf rA rB : ℚ) (n : ℕ) :
    Except OrbitError (List Vec3 × List Vec3 × ℝ) :=
  if 0 < rA ∧ Rsurf ≤ rA ∧ 0 < rB ∧ Rsurf ≤ rB ∧ 2 ≤ n then
    Except.ok
      (coords mu (rA : ℝ) (sampleTimes (period mu (rA : ℝ)) n),
        coords mu (rB : ℝ) (sampleTimes (period mu (rA : ℝ)) n),
        min_distance mu (rA : ℝ) (rB : ℝ) n)
  else
    Except.error OrbitError.invalidOrbit

/-! ## Helper lemmas about the list minimum -/

lemma foldl_min_le_init (xs : List ℝ) : ∀ a : ℝ, xs.foldl min a ≤ a := by
  induction xs with
  | nil => intro a; simp
  | cons x xs ih =>
    intro a
    simp only [List.foldl_cons]
    exact le_trans (ih (min a x)) (min_le_left a x)

lemma foldl_min_le_mem (xs : List ℝ) : ∀ a x : ℝ, x ∈ xs → xs.foldl min a ≤ x := by
  induction xs with
  | nil => intro a x hx; simp at hx
  | cons y ys ih =>
    intro a x hx
    simp only [List.foldl_cons]
    rcases List.mem_cons.mp hx with h | h
    · subst h
      exact le_trans (foldl_min_le_init ys (min a x)) (min_le_right a x)
    · exact ih (min a y) x h

lemma le_foldl_min (xs : List ℝ) :
    ∀ a m : ℝ, m ≤ a → (∀ x ∈ xs, m ≤ x) → m ≤ xs.foldl min a := by
  induction xs with
  | nil => intro a m ha _; simpa using ha
  | cons y ys ih =>
    intro a m ha hxs
    simp only [List.foldl_cons]
    exact ih (min a y) m (le_min ha (hxs y (List.mem_cons_self y ys)))
      (fun x hx => hxs x (List.mem_cons_of_mem y hx))

lemma foldl_min_mem (xs : List ℝ) :
    ∀ a : ℝ, xs.foldl min a = a ∨ xs.foldl min a ∈ xs := by
  induction xs with
  | nil => intro a; left; rfl
  | cons y ys ih =>
    intro a
    simp only [List.foldl_cons]
    rcases ih (min a y) with h | h
    · rcases min_choice a y with hm | hm
      · left; rw [h, hm]
      · right; rw [h, hm]; exact List.mem_cons_self y ys
    · right; exact List.mem_cons_of_mem y h

lemma listMin_le_of_mem {l : List ℝ} {x : ℝ} (hx : x ∈ l) : listMin l ≤ x := by
  cases l with
  | nil => simp at hx
  | cons y ys =>
    rcases List.mem_cons.mp hx with h | h
    · rw [h]
      show ys.foldl min y ≤ y
      exact foldl_min_le_init ys y
    · show ys.foldl min y ≤ x
      exact foldl_min_le_mem ys y x h

lemma listMin_mem {l : List ℝ} (h : l ≠ []) : listMin l ∈ l := by
  cases l with
  | nil => exact absurd rfl h
  | cons y ys =>
    show ys.foldl min y ∈ y :: ys
    rcases foldl_min_mem ys y with h' | h'
    · rw [h']; exact List.mem_cons_self y ys
    · exact List.mem_cons_of_mem y h'

lemma le_listMin {l : List ℝ} {m : ℝ} (h : l ≠ []) (hall : ∀ x ∈ l, m ≤ x) :
    m ≤ listMin l := by
  cases l with
  | nil => exact absurd rfl h
  | cons y ys =>
    exact le_foldl_min ys y m (hall y (List.mem_cons_self y ys))
      (fun x hx => hall x (List.mem_cons_of_mem y hx))

/-! ## Structure of the distance series -/

lemma distSeries_eq_map (mu rA rB : ℝ) (n : ℕ) :
    distSeries mu rA rB n =
      (List.range n).map
        (fun i => pairDist mu rA rB (sampleTime (period mu rA) n i)) := by
  unfold distSeries coords sampleTimes
  rw [List.zip_map', List.map_map, List.map_map]
  rfl

lemma distSeries_length (mu rA rB : ℝ) (n : ℕ) :
    (distSeries mu rA rB n).length = n := by
  rw [distSeries_eq_map]; simp

lemma mem_distSeries_iff (mu rA rB x : ℝ) (n : ℕ) :
    x ∈ distSeries mu rA rB n ↔
      ∃ i, i < n ∧ pairDist mu rA rB (sampleTime (period mu rA) n i) = x := by
  rw [distSeries_eq_map]
  simp [List.mem_map, List.mem_range]

/-! ## Geometry of circular coplanar orbits sharing an epoch -/

lemma pairDist_eq_sqrt (mu rA rB t : ℝ) :
    pairDist mu rA rB t =
      Real.sqrt ((rA - rB) ^ 2 +
        2 * rA * rB * (1 - Real.cos (angleAt mu rA t - angleAt mu rB t))) := by
  unfold pairDist vsub position norm3
  congr 1
  rw [Real.cos_sub]
  linear_combination (rA ^ 2) * Real.cos_sq_add_sin_sq (angleAt mu rA t) +
    (rB ^ 2) * Real.cos_sq_add_sin_sq (angleAt mu rB t)

lemma abs_sub_le_pairDist (mu rA rB t : ℝ) (hprod : 0 ≤ rA * rB) :
    |rA - rB| ≤ pairDist mu rA rB t := by
  rw [pairDist_eq_sqrt]
  have hcos : Real.cos (angleAt mu rA t - angleAt mu rB t) ≤ 1 :=
    Real.cos_le_one _
  have hstep : (rA - rB) ^ 2 ≤
      (rA - rB) ^ 2 +
        2 * rA * rB * (1 - Real.cos (angleAt mu rA t - angleAt mu rB t)) := by
    nlinarith
  calc |rA - rB| = Real.sqrt ((rA - rB) ^ 2) := (Real.sqrt_sq_eq_abs _).symm
    _ ≤ _ := Real.sqrt_le_sqrt hstep

lemma sampleTime_zero (P : ℝ) (n : ℕ) : sampleTime P n 0 = 0 := by
  simp [sampleTime]

lemma angleAt_zero (mu r : ℝ) : angleAt mu r 0 = 0 := by
  simp [angleAt]

lemma pairDist_zero (mu rA rB : ℝ) : pairDist mu rA rB 0 = |rA - rB| := by
  rw [pairDist_eq_sqrt, angleAt_zero, angleAt_zero]
  simp [Real.sqrt_sq_eq_abs]

/-- For two circular coplanar orbits sharing an epoch, the sampled minimum
distance is exactly the absolute radius separation: the first sample (at
elapsed time 0) realises it and no sample is closer. -/
lemma min_distance_eq_abs (mu rA rB : ℝ) (n : ℕ) (hn : 1 ≤ n)
    (hprod : 0 ≤ rA * rB) : min_distance mu rA rB n = |rA - rB| := by
  have hne : distSeries mu rA rB n ≠ [] := by
    intro hnil
    have := distSeries_length mu rA rB n
    rw [hnil] at this
    simp at this
    omega
  have hmem : |rA - rB| ∈ distSeries mu rA rB n := by
    rw [mem_distSeries_iff]
    exact ⟨0, hn, by rw [sampleTime_zero, pairDist_zero]⟩
  refine le_antisymm (listMin_le_of_mem hmem) (le_listMin hne ?_)
  intro x hx
  rcases (mem_distSeries_iff mu rA rB x n).mp hx with ⟨i, _, hi⟩
  rw [← hi]
  exact abs_sub_le_pairDist mu rA rB _ hprod

lemma distSeries_ne_nil (mu rA rB : ℝ) (n : ℕ) (hn : 1 ≤ n) :
    distSeries mu rA rB n ≠ [] := by
  intro hnil
  have hlen := distSeries_length mu rA rB n
  rw [hnil] at hlen
  simp at hlen
  omega

/-! ## Concrete witnesses used to instantiate the detector theorems -/

/-- A concrete two-row telemetry frame. -/
def exampleFrame : Frame :=
  { time := [FVal.finite 0, FVal.finite 1],
    temperature := [FVal.finite 20, FVal.finite 21],
    voltage := [FVal.finite 5, FVal.finite 5],
    current := [FVal.finite 2, FVal.finite 2],
    signal_strength := [FVal.finite 90, FVal.finite 91],
    anomaly := none }

/-- The same frame with different timestamp values. -/
def exampleFrameShifted : Frame :=
  { exampleFrame with time := [FVal.finite 5, FVal.finite 6] }

/-- A concrete detector satisfying the fit-predict contract: one label `1`
per row. -/
def constOneFP : FitPredict := fun _ _ ft => ft.1.map (fun _ => 1)

/-! ## Claim theorems -/

/-- Claim C1: the risk tier is determined by strict threshold comparisons —
`d < 10` yields CRITICAL, `10 ≤ d < 50` yields WARNING, `d ≥ 50` yields
SAFE; in particular `d = 10` yields WARNING and `d = 50` yields SAFE. -/
theorem risk_status_tiers (d : ℚ) :
    (d < 10 → risk_status d = RiskStatus.CRITICAL) ∧
    (10 ≤ d → d < 50 → risk_status d = RiskStatus.WARNING) ∧
    (50 ≤ d → risk_status d = RiskStatus.SAFE) := by
  refine ⟨fun h => ?_, fun h h' => ?_, fun h => ?_⟩
  · simp [risk_status, h]
  · have h10 : ¬ d < 10 := by linarith
    simp [risk_status, h10, h']
  · have h10 : ¬ d < 10 := by linarith
    have h50 : ¬ d < 50 := by linarith
    simp [risk_status, h10, h50]

theorem risk_status_tiers_witness :
    risk_status (999 / 100) = RiskStatus.CRITICAL ∧
    risk_status 10 = RiskStatus.WARNING ∧
    risk_status 50 = RiskStatus.SAFE :=
  ⟨(risk_status_tiers (999 / 100)).1 (by norm_num),
    (risk_status_tiers 10).2.1 (by norm_num) (by norm_num),
    (risk_status_tiers 50).2.2 (by norm_num)⟩

/-- Claim C2: both orbits are sampled at the same `n` uniform elapsed-time
offsets spanning exactly one period of orbit A (first offset 0, last offset
`period mu rA`, independent of orbit B), giving two equal-length trajectories
whose `i`-th samples correspond to the same elapsed time. -/
theorem trajectories_time_aligned (mu rA rB : ℝ) (n : ℕ) (hn : 2 ≤ n) :
    (coords mu rA (sampleTimes (period mu rA) n)).length = n ∧
    (coords mu rB (sampleTimes (period mu rA) n)).length = n ∧
    (∀ i, i < n →
      (coords mu rA (sampleTimes (period mu rA) n))[i]? =
        some (position mu rA (sampleTime (period mu rA) n i)) ∧
      (coords mu rB (sampleTimes (period mu rA) n))[i]? =
        some (position mu rB (sampleTime (period mu rA) n i))) ∧
    sampleTime (period mu rA) n 0 = 0 ∧
    sampleTime (period mu rA) n (n - 1) = period mu rA := by
  refine ⟨?_, ?_, ?_, sampleTime_zero _ _, ?_⟩
  · simp [coords, sampleTimes]
  · simp [coords, sampleTimes]
  · intro i hi
    constructor <;>
      simp [coords, sampleTimes, List.getElem?_map, List.getElem?_range, hi]
  · unfold sampleTime
    have h1 : ((n - 1 : ℕ) : ℝ) = (n : ℝ) - 1 := by
      have hn1 : 1 ≤ n := by omega
      push_cast [Nat.cast_sub hn1]
      ring
    have h2 : (n : ℝ) - 1 ≠ 0 := by
      have : (2 : ℝ) ≤ (n : ℝ) := by exact_mod_cast hn
      linarith
    rw [h1]
    field_simp

theorem trajectories_time_aligned_witness :
    (coords 1 1 (sampleTimes (period 1 1) 100)).length = 100 ∧
    sampleTime (period 1 1) 100 (100 - 1) = period 1 1 :=
  ⟨(trajectories_time_aligned 1 1 2 100 (by norm_num)).1,
    (trajectories_time_aligned 1 1 2 100 (by norm_num)).2.2.2.2⟩

/-- Claim C3: the reported `min_distance` equals the minimum over the `n`
aligned sample offsets of the Euclidean distance between the two satellites'
position vectors: it is a lower bound of every sampled distance and is
attained at some sample. -/
theorem min_distance_is_min (mu rA rB : ℝ) (n : ℕ) (hn : 1 ≤ n) :
    (∀ i, i < n →
      min_distance mu rA rB n ≤
        norm3 (vsub (position mu rA (sampleTime (period mu rA) n i))
          (position mu rB (sampleTime (period mu rA) n i)))) ∧
    (∃ i, i < n ∧
      min_distance mu rA rB n =
        norm3 (vsub (position mu rA (sampleTime (period mu rA) n i))
          (position mu rB (sampleTime (period mu rA) n i)))) := by
  constructor
  · intro i hi
    apply listMin_le_of_mem
    rw [mem_distSeries_iff]
    exact ⟨i, hi, rfl⟩
  · have hmem := listMin_mem (distSeries_ne_nil mu rA rB n hn)
    rcases (mem_distSeries_iff mu rA rB _ n).mp hmem with ⟨i, hi, heq⟩
    exact ⟨i, hi, heq.symm⟩

theorem min_distance_is_min_witness :
    min_distance 1 1 2 2 ≤
      norm3 (vsub (position 1 1 (sampleTime (period 1 1) 2 0))
        (position 1 2 (sampleTime (period 1 1) 2 0))) :=
  (min_distance_is_min 1 1 2 2 (by norm_num)).1 0 (by norm_num)

/-- Claim C4: with the random seed an explicit argument of the (pure)
fit-predict model, repeated runs of the detection on the same series with
the same contamination and the same seed produce identical label columns. -/
theorem detect_deterministic (fp : FitPredict) (f : Frame) :
    ((runDetectTwice fp f).1).anomaly = ((runDetectTwice fp f).2).anomaly :=
  rfl

/-- Claim C5: for every frame with at least 2 samples (whose feature columns
match the row count), and every fit-predict implementation meeting the
library contract (one label per row, labels in {-1, 1}), the detection step
stores exactly one label per input sample, in input order, each label -1
(anomalous) or 1 (normal). -/
theorem detect_label_per_sample (fp : FitPredict)
    (hlen : ∀ c s ft, (fp c s ft).length = ft.1.length)
    (hval : ∀ c s ft, ∀ l ∈ fp c s ft, l = -1 ∨ l = 1)
    (f : Frame) (hcols : f.temperature.length = numSamples f)
    (_h2 : 2 ≤ numSamples f) :
    ∃ labels : List Int,
      (detectStep fp f).anomaly = some labels ∧
      labels.length = numSamples f ∧
      ∀ l ∈ labels, l = -1 ∨ l = 1 := by
  refine ⟨fp (5 / 100) 42 (features f), rfl, ?_, hval _ _ _⟩
  rw [hlen]
  exact hcols

theorem detect_label_per_sample_witness :
    ∃ labels : List Int,
      (detectStep constOneFP exampleFrame).anomaly = some labels ∧
      labels.length = numSamples exampleFrame ∧
      ∀ l ∈ labels, l = -1 ∨ l = 1 :=
  detect_label_per_sample constOneFP
    (fun c s ft => by simp [constOneFP])
    (fun c s ft l hl => by
      simp only [constOneFP, List.mem_map] at hl
      rcases hl with ⟨a, _, ha⟩
      right
      omega)
    exampleFrame rfl (by decide)

/-- Claim C6: for two circular orbits differing only in radius, increasing
the radius separation (holding the gravitational parameter, epoch and
sample count fixed) never decreases the sampled minimum distance. -/
theorem min_distance_monotone_in_separation (mu rA s t : ℝ) (n : ℕ)
    (hA : 0 ≤ rA) (hs : 0 ≤ s) (hst : s ≤ t) (hn : 1 ≤ n) :
    min_distance mu rA (rA + s) n ≤ min_distance mu rA (rA + t) n := by
  have ht : 0 ≤ t := le_trans hs hst
  rw [min_distance_eq_abs mu rA (rA + s) n hn (by nlinarith),
    min_distance_eq_abs mu rA (rA + t) n hn (by nlinarith)]
  have h1 : |rA - (rA + s)| = s := by
    rw [show rA - (rA + s) = -s by ring, abs_neg, abs_of_nonneg hs]
  have h2 : |rA - (rA + t)| = t := by
    rw [show rA - (rA + t) = -t by ring, abs_neg, abs_of_nonneg ht]
  rw [h1, h2]
  exact hst

theorem min_distance_monotone_in_separation_witness :
    min_distance 398600 7000 (7000 + 5) 100 ≤
      min_distance 398600 7000 (7000 + 105) 100 :=
  min_distance_monotone_in_separation 398600 7000 5 105 100
    (by norm_num) (by norm_num) (by norm_num) (by norm_num)

/-- Claim C7: the detection step leaves every channel array and the
timestamp array of the input frame unchanged; it only fills the separate
`anomaly` column. -/
theorem detect_no_mutation (fp : FitPredict) (f : Frame) :
    (detectStep fp f).time = f.time ∧
    (detectStep fp f).temperature = f.temperature ∧
    (detectStep fp f).voltage = f.voltage ∧
    (detectStep fp f).current = f.current ∧
    (detectStep fp f).signal_strength = f.signal_strength :=
  ⟨rfl, rfl, rfl, rfl, rfl⟩

/-- Claim C8: the evaluation fails with `InvalidOrbitError` — returning no
result at all — exactly when a radius is non-positive, a radius lies below
the central body's surface radius, or the sample count is below 2. -/
theorem evaluate_validation (mu : ℝ) (Rsurf rA rB : ℚ) (n : ℕ) :
    evaluate mu Rsurf rA rB n = Except.error OrbitError.invalidOrbit ↔
      (rA ≤ 0 ∨ rA < Rsurf ∨ rB ≤ 0 ∨ rB < Rsurf ∨ n < 2) := by
  unfold evaluate
  by_cases h : 0 < rA ∧ Rsurf ≤ rA ∧ 0 < rB ∧ Rsurf ≤ rB ∧ 2 ≤ n
  · rw [if_pos h]
    refine iff_of_false (by simp) ?_
    intro hb
    rcases h with ⟨h1, h2, h3, h4, h5⟩
    rcases hb with hb | hb | hb | hb | hb
    · linarith
    · linarith
    · linarith
    · linarith
    · omega
  · rw [if_neg h]
    refine iff_of_true rfl ?_
    by_contra hb
    push_neg at hb
    exact h hb

/-- Claim C9: the checked detection fails with `InvalidInputError` exactly
when the series has fewer than 2 samples or some channel value is
non-finite; valid inputs are the only ones accepted. -/
theorem detect_input_validation (fp : FitPredict) (f : Frame) :
    detectChecked fp f = Except.error DetectError.invalidInput ↔
      (numSamples f < 2 ∨ ∃ v ∈ channelValues f, v.isFinite = false) := by
  unfold detectChecked
  by_cases h : 2 ≤ numSamples f ∧ (channelValues f).all FVal.isFinite = true
  · rw [if_pos h]
    refine iff_of_false (by simp) ?_
    intro hb
    rcases h with ⟨h1, h2⟩
    rcases hb with hb | ⟨v, hv, hfin⟩
    · omega
    · rw [List.all_eq_true] at h2
      have hv2 := h2 v hv
      rw [hfin] at hv2
      exact Bool.false_ne_true hv2
  · rw [if_neg h]
    refine iff_of_true rfl ?_
    by_cases h1 : 2 ≤ numSamples f
    · right
      have h2 : ¬ (channelValues f).all FVal.isFinite = true :=
        fun hc => h ⟨h1, hc⟩
      rw [List.all_eq_true] at h2
      push_neg at h2
      rcases h2 with ⟨v, hv, hfin⟩
      exact ⟨v, hv, by simpa using hfin⟩
    · left
      omega

/-- Claim C10: the labels depend only on the four feature channels — two
frames agreeing on temperature, voltage, current and signal strength but
with different timestamp columns receive identical label sequences. -/
theorem labels_ignore_time (fp : FitPredict) (f1 f2 : Frame)
    (ht : f1.temperature = f2.temperature) (hv : f1.voltage = f2.voltage)
    (hc : f1.current = f2.current)
    (hs : f1.signal_strength = f2.signal_strength) :
    (detectStep fp f1).anomaly = (detectStep fp f2).anomaly := by
  simp [detectStep, features, ht, hv, hc, hs]

theorem labels_ignore_time_witness :
    (detectStep constOneFP exampleFrame).anomaly =
      (detectStep constOneFP exampleFrameShifted).anomaly :=
  labels_ignore_time constOneFP exampleFrame exampleFrameShifted
    rfl rfl rfl rfl

end TelemetriX
